import Mathlib

/-!
Verification of the contacts-cache / messaging-confirmation core of the
apple-mcp-enhanced repository.

The definitions below are a shallow embedding of the TypeScript source:

* `src/cache-manager.ts` — `ContactsCacheManager` (contact extraction,
  capability probing, persistence, fuzzy name lookup);
* the enhanced-messages module (`sendMessageEnhanced` / `sendMessageConfirmed`
  and the in-memory `pendingConfirmations` ledger);
* the contacts-cache daemon (`isAlreadyRunning` / `getStatus` and the PID
  liveness marker).

External effects (AppleScript automation-bridge calls, the wall clock, the
file system, process liveness) are passed in explicitly: bridge calls become
`Except String String` oracles, the clock becomes a `Nat` parameter in
milliseconds, persisted files become an explicit record, and process liveness
becomes a `Nat → Bool` oracle.  JavaScript `Map`s become association lists
that preserve insertion order, mirroring JS `Map` iteration semantics.
-/

/-! ## JavaScript string primitives used by the source

The source manipulates strings with `toLowerCase`, `trim`, `split`,
`startsWith`, `endsWith` and `includes`.  These are modelled directly on the
character sequence by structural recursion (the ASCII fragment, which is all
the source's own string constants and separators use). -/

/-- The first list is a prefix of the second. -/
def isPrefixList : List Char → List Char → Bool
  | [], _ => true
  | _ :: _, [] => false
  | a :: as, b :: bs => a = b && isPrefixList as bs

/-- The first list occurs contiguously inside the second. -/
def isSubList : List Char → List Char → Bool
  | sub, [] => isPrefixList sub []
  | sub, c :: t => isPrefixList sub (c :: t) || isSubList sub t

/-- JS `s.startsWith(pre)`. -/
def jsStartsWith (s pre : String) : Bool :=
  isPrefixList pre.data s.data

/-- JS `s.endsWith(suf)`. -/
def jsEndsWith (s suf : String) : Bool :=
  isPrefixList suf.data.reverse s.data.reverse

/-- JS `s.includes(sub)`: `sub` occurs contiguously inside `s`. -/
def jsIncludes (s sub : String) : Bool :=
  isSubList sub.data s.data

/-- JS `s.toLowerCase()` on the ASCII fragment. -/
def jsToLower (s : String) : String :=
  String.mk (s.data.map Char.toLower)

/-- JS `s.toUpperCase()` on the ASCII fragment. -/
def jsToUpper (s : String) : String :=
  String.mk (s.data.map Char.toUpper)

/-- JS `s.trim()`: strip leading and trailing whitespace. -/
def jsTrim (s : String) : String :=
  String.mk (((s.data.dropWhile Char.isWhitespace).reverse.dropWhile Char.isWhitespace).reverse)

/-- JS `s.split(sep)` for a single-character separator (the source only
splits on `'\n'`, `':'` and `'|'`). -/
def splitOnChar (sep : Char) : List Char → List (List Char)
  | [] => [[]]
  | c :: t =>
    match splitOnChar sep t with
    | [] => [[]]
    | h :: r => if c = sep then [] :: h :: r else (c :: h) :: r

/-- JS `s.split(sep)` as a `String` operation. -/
def jsSplit (s : String) (sep : Char) : List String :=
  (splitOnChar sep s.data).map String.mk

/-- Embeds `message.replace(/"/g, '\\"')` from `sendMessageConfirmed` step 6. -/
def escapeQuotes (s : String) : String :=
  String.mk (s.data.foldr (fun c acc => if c = '"' then '\\' :: '"' :: acc else c :: acc) [])

/-- Value of a decimal digit sequence. -/
def digitsToNat (l : List Char) : Nat :=
  l.foldl (fun n c => n * 10 + (c.toNat - 48)) 0

/-- JS `parseInt(s.trim())` restricted to the non-negative decimal values the
daemon PID file can hold; a string whose trimmed form does not start with a
digit parses to `none` (the embedding of `NaN`). -/
def jsParseIntNat (s : String) : Option Nat :=
  let ds := (jsTrim s).data.takeWhile Char.isDigit
  if ds.isEmpty then none else some (digitsToNat ds)

/-- JS truthiness of an optional string argument: absent and `""` are falsy. -/
def jsTruthy (o : Option String) : Bool :=
  match o with
  | some s => s ≠ ""
  | none => false

/-! ## Insertion-ordered maps (JS `Map` as an association list) -/

/-- JS `Map.get` / `Map.has`. -/
def mapGet {α : Type} (m : List (String × α)) (k : String) : Option α :=
  match m with
  | [] => none
  | (k', v) :: t => if k' = k then some v else mapGet t k

/-- JS `Map.set`: overwrite in place when the key exists, append otherwise. -/
def mapSet {α : Type} (m : List (String × α)) (k : String) (v : α) : List (String × α) :=
  match m with
  | [] => [(k, v)]
  | (k', v') :: t => if k' = k then (k, v) :: t else (k', v') :: mapSet t k v

/-- JS `Map.delete`. -/
def mapDelete {α : Type} (m : List (String × α)) (k : String) : List (String × α) :=
  m.filter (fun kv => kv.1 ≠ k)

/-! ## Data model of `cache-manager.ts` -/

/-- Structure `CachedContact` from `cache-manager.ts`. -/
structure CachedContact where
  name : String
  phoneNumbers : List String
  emails : List String
  lastUpdated : Nat
deriving DecidableEq, Repr

/-- Structure `MessageCapability` from `cache-manager.ts`.  The TS type annotation
`'imessage' | 'sms' | 'unknown'` is erased at runtime: the stored value is
whatever trimmed string the AppleScript probe returned, so the field is a
plain `String` here. -/
structure MessageCapability where
  phoneNumber : String
  type : String
  lastTested : Nat
  confidence : ℚ
deriving DecidableEq, Repr

/-- Structure `CacheMetadata` from `cache-manager.ts`. -/
structure CacheMetadata where
  lastFullUpdate : Nat
  contactsCount : Nat
  capabilitiesCount : Nat
  version : String
deriving DecidableEq, Repr

/-- The in-memory state of a `ContactsCacheManager` instance. -/
structure CacheState where
  contacts : List (String × CachedContact)
  capabilities : List (String × MessageCapability)
  metadata : CacheMetadata
deriving DecidableEq, Repr

/-- The three persisted snapshot files (`contacts-cache.json`,
`message-capabilities-cache.json`, `cache-metadata.json`); `none` means the
file does not exist. -/
structure Persisted where
  contactsFile : Option (List CachedContact)
  capsFile : Option (List MessageCapability)
  metaFile : Option CacheMetadata
deriving DecidableEq, Repr

/-! ## Normalizer (`normalizePhoneNumber` in `cache-manager.ts`) -/

/-- Embeds `phone.replace(/[^0-9+]/g, "")`: keep digits and every `+`. -/
def cleanPhone (phone : String) : String :=
  String.mk (phone.data.filter (fun c => c.isDigit || c = '+'))

/-- Regex `/^\+1\d{10}$/`: the anchored regex as a predicate on the character
sequence of the cleaned string. -/
def isPlus1Form (s : String) : Bool :=
  match s.data with
  | c1 :: c2 :: rest => c1 = '+' && c2 = '1' && rest.length = 10 && rest.all Char.isDigit
  | _ => false

/-- Regex `/^1\d{10}$/` on the cleaned string. -/
def isOne11Form (s : String) : Bool :=
  match s.data with
  | c1 :: rest => c1 = '1' && rest.length = 10 && rest.all Char.isDigit
  | _ => false

/-- Regex `/^\d{10}$/` on the cleaned string. -/
def isBare10Form (s : String) : Bool :=
  s.data.length = 10 && s.data.all Char.isDigit

/-- Embeds `ContactsCacheManager.normalizePhoneNumber` (cache-manager.ts lines
337–356), returning `none` for the TS `null`. -/
def normalizePhoneNumber (phone : String) : Option String :=
  if phone = "" then none
  else
    let cleaned := cleanPhone phone
    if cleaned.length < 10 then none
    else if isPlus1Form cleaned then some cleaned
    else if isOne11Form cleaned then some ("+" ++ cleaned)
    else if isBare10Form cleaned then some ("+1" ++ cleaned)
    else some cleaned

/-! ## Fuzzy name resolution (`findContactByName` in `cache-manager.ts`) -/

/-- The cascading if/else scoring of `findContactByName` (lines 464–486):
the first applicable rule of the fixed table wins. -/
def calcScore (q key : String) : Nat :=
  if key = q then 100
  else if jsStartsWith key (q ++ " ") then 90
  else if jsStartsWith key q then 80
  else if jsIncludes key (" " ++ q ++ " ") then 70
  else if jsEndsWith key (" " ++ q) then 60
  else if jsIncludes key q then 20
  else 0

/-- One iteration of the best-match loop of `findContactByName`
(lines 482–485): strict improvement only, so ties keep the first-seen
candidate. -/
def bestStep (q : String) (acc : Nat × Option CachedContact) (kv : String × CachedContact) :
    Nat × Option CachedContact :=
  let s := calcScore q kv.1
  if acc.1 < s then (s, some kv.2) else acc

/-- The best-match loop of `findContactByName`, started from
`bestScore = 0`, `bestMatch = null`. -/
def bestFold (q : String) (l : List (String × CachedContact)) : Nat × Option CachedContact :=
  l.foldl (bestStep q) (0, none)

/-- Embeds `ContactsCacheManager.findContactByName` (lines 448–490) over an already
loaded contacts map.  (The lazy `loadExistingCache` call that fires when the
in-memory map is empty merely populates the map that is passed in here.) -/
def findContactByName (contacts : List (String × CachedContact)) (name : String) :
    Option CachedContact :=
  let normalizedName := jsToLower name
  match mapGet contacts normalizedName with
  | some c => some c
  | none =>
    let best := bestFold normalizedName contacts
    if 60 ≤ best.1 then best.2 else none

/-! ## Extraction pipeline (`extractAllContacts` in `cache-manager.ts`) -/

/-- The parsing loop of `extractAllContacts` (lines 173–206): split the
bridge's flat result on newlines, split each entry on `:`, drop entries
without a name or without at least one non-empty phone number, and store the
survivors keyed by lowercased name (last write wins, JS `Map.set`). -/
def parseContacts (result : String) (now : Nat) : List (String × CachedContact) :=
  if result = "" ∨ jsTrim result = "" then []
  else
    (jsSplit result '\n').foldl (fun m entry =>
      if jsTrim entry = "" then m
      else
        let parts := jsSplit entry ':'
        if parts.length < 2 then m
        else
          let name := jsTrim (parts.getD 0 "")
          let phonesString := jsTrim (parts.getD 1 "")
          let emailsString := if 2 < parts.length then jsTrim (parts.getD 2 "") else ""
          if name ≠ "" ∧ phonesString ≠ "" then
            let phoneNumbers := ((jsSplit phonesString '|').map jsTrim).filter (· ≠ "")
            let emails :=
              if emailsString ≠ "" then
                ((jsSplit emailsString '|').map jsTrim).filter (· ≠ "")
              else []
            if phoneNumbers ≠ [] then mapSet m (jsToLower name) ⟨name, phoneNumbers, emails, now⟩
            else m
          else m) []

/-- Embeds `ContactsCacheManager.extractAllContacts` (lines 82–213).  The argument
`bridge` is the outcome of the single `runAppleScript` enumeration call; a
bridge failure is rethrown by the `catch` block before `this.contacts` is
touched, so the state is unchanged on error. -/
def extractAllContacts (bridge : Except String String) (st : CacheState) (now : Nat) :
    Except String CacheState :=
  match bridge with
  | .error e => .error e
  | .ok result => .ok { st with contacts := parseContacts result now }

/-! ## Capability probing (`testMessageCapabilities` in `cache-manager.ts`) -/

/-- The unique-number collection of `testMessageCapabilities` (lines 220–227):
normalize every phone number of every contact, deduplicating in insertion
order (JS `Set`). -/
def collectNumbers (contacts : List (String × CachedContact)) : List String :=
  contacts.foldl (fun acc kv =>
    kv.2.phoneNumbers.foldl (fun acc2 ph =>
      match normalizePhoneNumber ph with
      | some n => if n ∈ acc2 then acc2 else acc2 ++ [n]
      | none => acc2) acc) []

/-- Embeds `ContactsCacheManager.testSingleMessageCapability` (lines 271–335): the
whole body sits in a `try` whose `catch` returns `'unknown'`, so a probe
error yields `'unknown'`; on success the trimmed AppleScript output is
returned as-is. -/
def testSingleMessageCapability (probe : Except String String) : String :=
  match probe with
  | .ok r => jsTrim r
  | .error _ => "unknown"

/-- Embeds `ContactsCacheManager.calculateConfidence` (lines 358–365). -/
def calculateConfidence (t : String) : ℚ :=
  if t = "imessage" then 0.9
  else if t = "sms" then 0.8
  else if t = "unknown" then 0.3
  else 0.1

/-- The record stored for one probed number (lines 243–249 of the loop
body): probe, classify, attach the confidence derived from the
classification. -/
def capabilityRecordFor (probe : String → Except String String) (now : Nat)
    (n : String) : MessageCapability :=
  let t := testSingleMessageCapability (probe n)
  ⟨n, t, now, calculateConfidence t⟩

/-- Embeds `ContactsCacheManager.testMessageCapabilities` (lines 215–269).  `probe`
gives the per-number AppleScript outcome.  The batching (size 10) and the
inter-batch sleep do not affect the resulting state and are elided.  The
`try`/`catch` around `testSingleMessageCapability` inside the loop is
unreachable because that function catches every error internally and returns
`'unknown'`; the `catch`'s `confidence: 0.1` record is therefore dead code.
Note that `this.capabilities` is never cleared: records are only added or
overwritten. -/
def testMessageCapabilities (probe : String → Except String String) (st : CacheState)
    (now : Nat) : CacheState :=
  let numbers := collectNumbers st.contacts
  { st with
    capabilities := numbers.foldl (fun caps n =>
      mapSet caps n (capabilityRecordFor probe now n)) st.capabilities }

/-! ## Persistence (`loadExistingCache` / `saveCache` / `fullUpdate`) -/

/-- Re-keying of the contacts file on load (lines 49–57). -/
def loadContactsFromFile (arr : List CachedContact) : List (String × CachedContact) :=
  arr.foldl (fun m c => mapSet m (jsToLower c.name) c) []

/-- Re-keying of the capabilities file on load (lines 59–67). -/
def loadCapsFromFile (arr : List MessageCapability) : List (String × MessageCapability) :=
  arr.foldl (fun m c => mapSet m c.phoneNumber c) []

/-- Embeds `ContactsCacheManager.loadExistingCache` (lines 47–80): each snapshot file
that exists replaces the corresponding in-memory map (clear + repopulate);
missing files leave the map alone. -/
def loadExistingCache (p : Persisted) (st : CacheState) : CacheState :=
  let st1 :=
    match p.contactsFile with
    | some arr => { st with contacts := loadContactsFromFile arr }
    | none => st
  let st2 :=
    match p.capsFile with
    | some arr => { st1 with capabilities := loadCapsFromFile arr }
    | none => st1
  match p.metaFile with
  | some meta => { st2 with metadata := meta }
  | none => st2

/-- Embeds `ContactsCacheManager.saveCache` (lines 367–401): serialize the values of
both maps, then write fresh metadata. -/
def saveCache (st : CacheState) (now : Nat) : CacheState × Persisted :=
  let contactsArray := st.contacts.map (·.2)
  let capabilitiesArray := st.capabilities.map (·.2)
  let meta : CacheMetadata :=
    ⟨now, st.contacts.length, st.capabilities.length, "1.0.0"⟩
  ({ st with metadata := meta },
   ⟨some contactsArray, some capabilitiesArray, some meta⟩)

/-- Embeds `ContactsCacheManager.fullUpdate` (lines 421–445): load, extract, probe,
save.  The first component is the pipeline outcome (a rethrown bridge error
or success); the remaining components are the in-memory state and the
persisted files after the run.  When extraction fails nothing has been
written, so the persisted files are returned untouched. -/
def fullUpdate (enumBridge : Except String String) (probe : String → Except String String)
    (p : Persisted) (st : CacheState) (now : Nat) :
    Except String Unit × CacheState × Persisted :=
  let st0 := loadExistingCache p st
  match extractAllContacts enumBridge st0 now with
  | .error e => (.error e, st0, p)
  | .ok st1 =>
    let st2 := testMessageCapabilities probe st1 now
    let (st3, p3) := saveCache st2 now
    (.ok (), st3, p3)

/-! ## Confirmation workflow (the enhanced-messages module) -/

/-- An entry of the in-memory `pendingConfirmations` map. -/
structure PendingConfirmation where
  validatedRecipient : String
  validatedPhoneNumber : String
  message : String
  validatedMessageType : String
  timestamp : Nat
deriving DecidableEq, Repr

/-- The structured outcome of `sendMessageConfirmed`. -/
structure ConfirmResult where
  success : Bool
  message : String
  recipientName : Option String
  messageType : Option String
  phoneNumber : Option String
deriving DecidableEq, Repr

/-- The send script handed to the automation bridge in step 6 of
`sendMessageConfirmed`: the buddy's phone number, the escaped body, and
whether the iMessage-service variant of the script is used. -/
structure SendScript where
  phoneNumber : String
  body : String
  viaIMessageService : Bool
deriving DecidableEq, Repr

/-- Step 6 of `sendMessageConfirmed` (lines 437–454): the script is built
from the stored, validated fields of the pending confirmation alone. -/
def mkSendScript (p : PendingConfirmation) : SendScript :=
  ⟨p.validatedPhoneNumber, escapeQuotes p.message, p.validatedMessageType = "imessage"⟩

/-- The fixed affirmative vocabulary check of step 2:
`['yes', 'y', 'confirm', 'send', 'ok', 'proceed'].includes(userConfirmation.toLowerCase().trim())`. -/
def isAffirmative (s : String) : Bool :=
  jsTrim (jsToLower s) ∈ (["yes", "y", "confirm", "send", "ok", "proceed"] : List String)

/-- Embeds `cleanupOldConfirmations` (part_001 lines 68–75): delete every entry
whose timestamp is strictly below `now - 5 minutes`. -/
def cleanupOldConfirmations (now : Nat) (m : List (String × PendingConfirmation)) :
    List (String × PendingConfirmation) :=
  m.filter (fun kv => ¬ kv.2.timestamp < now - 5 * 60 * 1000)

/-- Embeds `sendMessageConfirmed` (part_001 lines 390–476).  Inputs: the current
`pendingConfirmations` ledger, the two actual arguments of the function
(`confirmationToken`, optional `userConfirmation`), the clock, and the
outcome of the `runAppleScript` send call.  Output: the structured result,
the ledger afterwards, and the script passed to the bridge (`none` when the
bridge was never invoked).  The decline test follows the JS truthiness of
`userConfirmation && ...`: an absent or empty-string response skips the
decline branch and proceeds as affirmative. -/
def sendMessageConfirmed (pending : List (String × PendingConfirmation)) (token : String)
    (userConfirmation : Option String) (now : Nat) (bridge : Except String Unit) :
    ConfirmResult × List (String × PendingConfirmation) × Option SendScript :=
  match mapGet pending token with
  | none =>
    (⟨false, "❌ Invalid or expired confirmation token. Please start the send process again.",
      none, none, none⟩, pending, none)
  | some pendingData =>
    if (match userConfirmation with
        | some s => s ≠ "" && !isAffirmative s
        | none => false) then
      (⟨false, "❌ Message sending cancelled by user.", none, none, none⟩,
       mapDelete pending token, none)
    else
      let pending1 := cleanupOldConfirmations now pending
      if pendingData.timestamp < now - 5 * 60 * 1000 then
        (⟨false, "❌ Confirmation token expired. Please start the send process again.",
          none, none, none⟩, mapDelete pending1 token, none)
      else
        let script := mkSendScript pendingData
        match bridge with
        | .ok _ =>
          (⟨true,
            "✅ Message sent to " ++ pendingData.validatedRecipient ++ " (" ++
              pendingData.validatedPhoneNumber ++ ") via " ++
              jsToUpper pendingData.validatedMessageType,
            some pendingData.validatedRecipient, some pendingData.validatedMessageType,
            some pendingData.validatedPhoneNumber⟩,
           mapDelete pending1 token, some script)
        | .error e =>
          (⟨false, "Failed to send confirmed message: " ++ e, none, none, none⟩,
           pending1, some script)

/-! ## Refresh daemon (PID liveness marker) -/

/-- The daemon's persisted liveness marker: `none` when the PID file does not
exist, otherwise its textual content. -/
structure DaemonFS where
  pidFile : Option String
deriving DecidableEq, Repr

/-- The daemon status record (the `running`/`pid` half of `getStatus`; the
remaining fields — cache age, cache size, next-update estimate, config — are
derived from the cache manager and its config and are independent of the
liveness marker, so they are elided here). -/
structure DaemonStatus where
  running : Bool
  pid : Option Nat
deriving DecidableEq, Repr

/-- Embeds `removePidFile`: when the file exists its content is overwritten with the
empty string (the source writes `""` rather than unlinking). -/
def removePidFile (fs : DaemonFS) : DaemonFS :=
  match fs.pidFile with
  | some _ => ⟨some ""⟩
  | none => fs

/-- Embeds `ContactsCacheDaemon.isAlreadyRunning`: no file, or unparsable content,
means not running; a parsed PID is checked against the live-process oracle
(`process.kill(pid, 0)`), and a dead PID clears the marker. -/
def isAlreadyRunning (live : Nat → Bool) (fs : DaemonFS) : Bool × DaemonFS :=
  match fs.pidFile with
  | none => (false, fs)
  | some content =>
    match jsParseIntNat content with
    | none => (false, fs)
    | some pid => if live pid then (true, fs) else (false, removePidFile fs)

/-- Embeds `ContactsCacheDaemon.getStatus` (running/pid half): the liveness check
runs first (with its marker-clearing side effect), and the reported PID is
re-read from the file only when the daemon is running. -/
def getStatus (live : Nat → Bool) (fs : DaemonFS) : DaemonStatus × DaemonFS :=
  let r := isAlreadyRunning live fs
  let pid :=
    if r.1 then
      match r.2.pidFile with
      | some content => jsParseIntNat content
      | none => none
    else none
  (⟨r.1, pid⟩, r.2)

/-! ## Amended specification contract for the normalizer

The claim that `normalize` strips everything "except digits and a leading
`+`" and "returns null when fewer than 10 digits remain" does not match the
source: the `replace(/[^0-9+]/g, "")` strip keeps every `+` wherever it
occurs, and the `cleaned.length < 10` guard counts those `+` characters, so
a string with nine digits and a `+` passes the guard.  The contract below is
the claim amended to the source behavior. -/

/-- The amended normalizer contract, written from the amended claim's words:
strip every character except digits and `+` signs (all of them, not only a
leading one); fail when the stripped form — `+` signs included — is shorter
than 10 characters or the raw string was empty; `+1` plus 10 digits is
already canonical; a leading bare `1` plus 10 digits gains a `+`; a bare
10-digit sequence gains `+1`; every other stripped form of length at least
10 is accepted as-is, whether or not it begins with `+`. -/
def specNormalizeAmended (raw : String) : Option String :=
  let stripped := raw.data.filter (fun c => c.isDigit || c = '+')
  if raw.data = [] ∨ stripped.length < 10 then none
  else if stripped.take 2 = ['+', '1'] ∧ (stripped.drop 2).length = 10 ∧
      ∀ c ∈ stripped.drop 2, c.isDigit = true then
    some (String.mk stripped)
  else if stripped.take 1 = ['1'] ∧ (stripped.drop 1).length = 10 ∧
      ∀ c ∈ stripped.drop 1, c.isDigit = true then
    some (String.mk ('+' :: stripped))
  else if stripped.length = 10 ∧ ∀ c ∈ stripped, c.isDigit = true then
    some (String.mk ('+' :: '1' :: stripped))
  else some (String.mk stripped)

/-! ## Concrete fixtures used by witnesses and counterexamples -/

/-- A contact stored under the lowercased key `"ana samat"` (the spec's own
worked scenario). -/
def anaContact : CachedContact := ⟨"Ana Samat", ["+34618823793"], [], 0⟩

/-- A one-entry contacts map. -/
def anaContacts : List (String × CachedContact) := [("ana samat", anaContact)]

/-- A freshly issued pending confirmation (timestamp 0). -/
def pendingFresh : PendingConfirmation := ⟨"Bob", "+14155550100", "hi there", "imessage", 0⟩

/-- A pending confirmation issued at t = 400000 ms (valid at that clock). -/
def pendingValidA : PendingConfirmation := ⟨"A", "+14155550100", "m", "sms", 400000⟩

/-- A pending confirmation issued at t = 0 (expired by t = 400000 ms). -/
def pendingExpiredB : PendingConfirmation := ⟨"B", "+14155550199", "m2", "sms", 0⟩

/-- An in-memory cache state holding one contact with one phone number. -/
def stateBob : CacheState :=
  ⟨[("bob", ⟨"Bob", ["415-555-0100"], [], 0⟩)], [], ⟨0, 0, 0, "1.0.0"⟩⟩

/-- An empty in-memory cache state. -/
def stateEmpty : CacheState := ⟨[], [], ⟨0, 0, 0, "1.0.0"⟩⟩

/-- A capability record for a number that no current contact holds. -/
def staleCap : MessageCapability := ⟨"+19999999999", "sms", 0, 0.8⟩

/-- Persisted files holding only the stale capability record. -/
def persistedStale : Persisted := ⟨none, some [staleCap], none⟩

/-! ## Helper lemmas about the map model -/

theorem mapGet_mem {α : Type} {m : List (String × α)} {k : String} {v : α}
    (h : mapGet m k = some v) : (k, v) ∈ m := by
  induction m with
  | nil => simp [mapGet] at h
  | cons kv t ih =>
    obtain ⟨k', v'⟩ := kv
    by_cases hk : k' = k
    · subst hk
      simp [mapGet] at h
      simp [h]
    · simp [mapGet, hk] at h
      exact List.mem_cons_of_mem _ (ih h)

theorem mapGet_mapSet {α : Type} (m : List (String × α)) (k k' : String) (v : α) :
    mapGet (mapSet m k v) k' = if k = k' then some v else mapGet m k' := by
  induction m with
  | nil => simp [mapSet, mapGet]
  | cons kv t ih =>
    obtain ⟨k₀, v₀⟩ := kv
    by_cases hk : k₀ = k
    · subst hk
      by_cases hk' : k₀ = k'
      · subst hk'; simp [mapSet, mapGet]
      · simp [mapSet, mapGet, hk', ih]
    · by_cases hk' : k₀ = k'
      · subst hk'
        have hne : ¬ k = k₀ := fun h => hk h.symm
        simp [mapSet, mapGet, hk, hne]
      · simp [mapSet, mapGet, hk, hk', ih]

theorem mapGet_mapDelete_self {α : Type} (m : List (String × α)) (k : String) :
    mapGet (mapDelete m k) k = none := by
  induction m with
  | nil => simp [mapDelete, mapGet]
  | cons kv t ih =>
    obtain ⟨k', v'⟩ := kv
    by_cases hk : k' = k
    · subst hk
      simpa [mapDelete, mapGet] using ih
    · simpa [mapDelete, mapGet, hk] using ih

/-- A fold that stores, for each key of a list, a value depending only on
that key, computes key-wise to the stored value; keys outside the list keep
their previous binding. -/
theorem mapGet_foldl_set {α : Type} (f : String → α) (l : List String)
    (init : List (String × α)) (n : String) :
    mapGet (l.foldl (fun m x => mapSet m x (f x)) init) n =
      if n ∈ l then some (f n) else mapGet init n := by
  induction l generalizing init with
  | nil => simp
  | cons x xs ih =>
    rw [List.foldl_cons, ih]
    by_cases hxs : n ∈ xs
    · simp [hxs]
    · by_cases hx : n = x
      · subst hx
        simp [hxs, mapGet_mapSet]
      · have hne : ¬ x = n := fun h => hx h.symm
        simp [hxs, hx, mapGet_mapSet, hne]

/-! ## Helper lemmas about the confirmation workflow -/

theorem mapGet_nil {α : Type} (k : String) : mapGet ([] : List (String × α)) k = none := rfl

theorem mapGet_cons {α : Type} (k' k : String) (v : α) (t : List (String × α)) :
    mapGet ((k', v) :: t) k = if k' = k then some v else mapGet t k := rfl

/-- The expiry sweep keeps an unexpired entry's binding intact. -/
theorem mapGet_cleanup_of_valid {m : List (String × PendingConfirmation)} {token : String}
    {p : PendingConfirmation} {now : Nat} (h : mapGet m token = some p)
    (hvalid : ¬ p.timestamp < now - 5 * 60 * 1000) :
    mapGet (cleanupOldConfirmations now m) token = some p := by
  induction m with
  | nil => simp [mapGet_nil] at h
  | cons kv t ih =>
    obtain ⟨k', v'⟩ := kv
    rw [mapGet_cons] at h
    unfold cleanupOldConfirmations
    rw [List.filter_cons]
    by_cases hk : k' = token
    · rw [if_pos hk] at h
      have hv : v' = p := by injection h
      subst hv
      have hb : (decide ¬ v'.timestamp < now - 5 * 60 * 1000) = true := by
        simpa using hvalid
      rw [hb, if_pos rfl, mapGet_cons, if_pos hk]
    · rw [if_neg hk] at h
      have ihh := ih h
      unfold cleanupOldConfirmations at ihh
      by_cases hkeep : (decide ¬ v'.timestamp < now - 5 * 60 * 1000) = true
      · rw [hkeep, if_pos rfl, mapGet_cons, if_neg hk]
        exact ihh
      · rw [Bool.not_eq_true] at hkeep
        rw [hkeep]
        simpa using ihh

/-- Branch reduction of `sendMessageConfirmed`: a known, unexpired token and
an absent / empty / affirmative response reach step 6, where the send script
built from the stored entry is handed to the bridge; the outcome then depends
only on the bridge result. -/
theorem confirm_of_valid_affirmative
    {pending : List (String × PendingConfirmation)} {token : String}
    {p : PendingConfirmation} {resp : Option String} {now : Nat}
    (hget : mapGet pending token = some p)
    (hvalid : ¬ p.timestamp < now - 5 * 60 * 1000)
    (hresp : ∀ s, resp = some s → s = "" ∨ isAffirmative s = true)
    (bridge : Except String Unit) :
    sendMessageConfirmed pending token resp now bridge =
      match bridge with
      | .ok _ =>
        (⟨true, "✅ Message sent to " ++ p.validatedRecipient ++ " (" ++
            p.validatedPhoneNumber ++ ") via " ++ jsToUpper p.validatedMessageType,
          some p.validatedRecipient, some p.validatedMessageType, some p.validatedPhoneNumber⟩,
         mapDelete (cleanupOldConfirmations now pending) token, some (mkSendScript p))
      | .error e =>
        (⟨false, "Failed to send confirmed message: " ++ e, none, none, none⟩,
         cleanupOldConfirmations now pending, some (mkSendScript p)) := by
  cases resp with
  | none =>
    unfold sendMessageConfirmed
    simp only [hget]
    simp only [Bool.false_eq_true, if_false, if_neg hvalid]
  | some s =>
    have hb : (decide (s ≠ "") && !isAffirmative s) = false := by
      rcases hresp s rfl with hs | hs
      · subst hs; simp
      · simp [hs]
    unfold sendMessageConfirmed
    simp only [hget, hb]
    simp only [Bool.false_eq_true, if_false, if_neg hvalid]

/-! ## Helper lemmas about the fuzzy-matching loop -/

theorem calcScore_le_100 (q k : String) : calcScore q k ≤ 100 := by
  unfold calcScore
  split_ifs <;> omega

theorem calcScore_self (q : String) : calcScore q q = 100 := by
  simp [calcScore]

/-- Characterization of the best-match fold from an arbitrary accumulator:
the running best never decreases, dominates every scanned score, and is
either untouched or realized by some scanned entry. -/
theorem bestFold_go (q : String) (l : List (String × CachedContact))
    (acc : Nat × Option CachedContact) :
    acc.1 ≤ (l.foldl (bestStep q) acc).1 ∧
    (∀ kv ∈ l, calcScore q kv.1 ≤ (l.foldl (bestStep q) acc).1) ∧
    ((l.foldl (bestStep q) acc) = acc ∨
      ∃ kv, kv ∈ l ∧ calcScore q kv.1 = (l.foldl (bestStep q) acc).1 ∧
        (l.foldl (bestStep q) acc).2 = some kv.2) := by
  induction l generalizing acc with
  | nil => exact ⟨le_refl _, by simp, Or.inl rfl⟩
  | cons hd tl ih =>
    rw [List.foldl_cons]
    obtain ⟨ih1, ih2, ih3⟩ := ih (bestStep q acc hd)
    have hstep1 : acc.1 ≤ (bestStep q acc hd).1 := by
      by_cases hlt : acc.1 < calcScore q hd.1
      · simp only [bestStep, if_pos hlt]
        omega
      · simp only [bestStep, if_neg hlt]
        exact le_refl _
    have hstep2 : calcScore q hd.1 ≤ (bestStep q acc hd).1 := by
      by_cases hlt : acc.1 < calcScore q hd.1
      · simp only [bestStep, if_pos hlt]
        exact le_refl _
      · simp only [bestStep, if_neg hlt]
        omega
    refine ⟨le_trans hstep1 ih1, ?_, ?_⟩
    · intro kv hkv
      rcases List.mem_cons.mp hkv with h | h
      · subst h; exact le_trans hstep2 ih1
      · exact ih2 kv h
    · rcases ih3 with heq | ⟨kv, hkv, hsc, hsnd⟩
      · rw [heq]
        by_cases hlt : acc.1 < calcScore q hd.1
        · refine Or.inr ⟨hd, List.mem_cons_self _ _, ?_, ?_⟩ <;>
            simp only [bestStep, if_pos hlt]
        · exact Or.inl (by simp only [bestStep, if_neg hlt])
      · exact Or.inr ⟨kv, List.mem_cons_of_mem _ hkv, hsc, hsnd⟩

/-! ## Helper lemmas for the normalizer refinement -/

theorem string_cons_plus (l : List Char) : "+" ++ String.mk l = String.mk ('+' :: l) := by
  apply String.ext
  rw [String.data_append]
  rfl

theorem string_cons_plus1 (l : List Char) :
    "+1" ++ String.mk l = String.mk ('+' :: '1' :: l) := by
  apply String.ext
  rw [String.data_append]
  rfl

theorem isPlus1Form_mk_iff (l : List Char) :
    isPlus1Form (String.mk l) = true ↔
      (l.take 2 = ['+', '1'] ∧ (l.drop 2).length = 10 ∧ ∀ c ∈ l.drop 2, c.isDigit = true) := by
  match l with
  | [] => simp [isPlus1Form]
  | [a] => simp [isPlus1Form]
  | a :: b :: rest =>
    simp [isPlus1Form, List.all_eq_true, and_assoc]

theorem isOne11Form_mk_iff (l : List Char) :
    isOne11Form (String.mk l) = true ↔
      (l.take 1 = ['1'] ∧ (l.drop 1).length = 10 ∧ ∀ c ∈ l.drop 1, c.isDigit = true) := by
  match l with
  | [] => simp [isOne11Form]
  | a :: rest =>
    simp [isOne11Form, List.all_eq_true, and_assoc]

theorem isBare10Form_mk_iff (l : List Char) :
    isBare10Form (String.mk l) = true ↔
      (l.length = 10 ∧ ∀ c ∈ l, c.isDigit = true) := by
  simp [isBare10Form, List.all_eq_true]

/-- Branch reduction of `sendMessageConfirmed`: unknown token. -/
theorem confirm_of_absent {pending : List (String × PendingConfirmation)} {token : String}
    {resp : Option String} {now : Nat} (bridge : Except String Unit)
    (hget : mapGet pending token = none) :
    sendMessageConfirmed pending token resp now bridge =
      (⟨false, "❌ Invalid or expired confirmation token. Please start the send process again.",
        none, none, none⟩, pending, none) := by
  unfold sendMessageConfirmed
  simp only [hget]

/-- Branch reduction of `sendMessageConfirmed`: a present, non-empty,
non-affirmative response declines, deleting the token without touching the
bridge. -/
theorem confirm_of_declined {pending : List (String × PendingConfirmation)} {token : String}
    {p : PendingConfirmation} {s : String} {now : Nat} (bridge : Except String Unit)
    (hget : mapGet pending token = some p)
    (hs : s ≠ "") (hna : isAffirmative s = false) :
    sendMessageConfirmed pending token (some s) now bridge =
      (⟨false, "❌ Message sending cancelled by user.", none, none, none⟩,
       mapDelete pending token, none) := by
  unfold sendMessageConfirmed
  simp only [hget]
  have hb : (decide (s ≠ "") && !isAffirmative s) = true := by simp [hs, hna]
  simp only [hb, if_true]

/-- Branch reduction of `sendMessageConfirmed`: a known but expired token
fails at step 4 (after the sweep), never touching the bridge. -/
theorem confirm_of_expired {pending : List (String × PendingConfirmation)} {token : String}
    {p : PendingConfirmation} {resp : Option String} {now : Nat} (bridge : Except String Unit)
    (hget : mapGet pending token = some p)
    (hexp : p.timestamp < now - 5 * 60 * 1000)
    (hresp : ∀ s, resp = some s → s = "" ∨ isAffirmative s = true) :
    sendMessageConfirmed pending token resp now bridge =
      (⟨false, "❌ Confirmation token expired. Please start the send process again.",
        none, none, none⟩,
       mapDelete (cleanupOldConfirmations now pending) token, none) := by
  cases resp with
  | none =>
    unfold sendMessageConfirmed
    simp only [hget]
    simp only [Bool.false_eq_true, if_false, if_pos hexp]
  | some s =>
    have hb : (decide (s ≠ "") && !isAffirmative s) = false := by
      rcases hresp s rfl with hs | hs
      · subst hs; simp
      · simp [hs]
    unfold sendMessageConfirmed
    simp only [hget, hb]
    simp only [Bool.false_eq_true, if_false, if_pos hexp]

/-- The best-match fold dominates every scanned score and is either the
untouched start `(0, null)` or realized by some scanned entry. -/
theorem bestFold_spec (q : String) (l : List (String × CachedContact)) :
    (∀ kv ∈ l, calcScore q kv.1 ≤ (bestFold q l).1) ∧
    ((bestFold q l) = (0, none) ∨
      ∃ kv, kv ∈ l ∧ calcScore q kv.1 = (bestFold q l).1 ∧ (bestFold q l).2 = some kv.2) := by
  have h := bestFold_go q l (0, none)
  exact ⟨h.2.1, h.2.2⟩

/-! ## Claim theorems -/

/-- C4: `findContactByName` lowercases the query and scores every cached key
with the fixed rule table (`calcScore`); a returned entry is one of maximal
score, returned only when that score is at least 60; when it returns null no
cached key scores 60 or more; and an exact lowercased-key match is always
returned. -/
theorem findContactByName_threshold_exact
    (contacts : List (String × CachedContact)) (name : String) :
    (∀ c, findContactByName contacts name = some c →
      ∃ k, (k, c) ∈ contacts ∧ 60 ≤ calcScore (jsToLower name) k ∧
        ∀ kv ∈ contacts, calcScore (jsToLower name) kv.1 ≤ calcScore (jsToLower name) k) ∧
    (findContactByName contacts name = none →
      ∀ kv ∈ contacts, calcScore (jsToLower name) kv.1 < 60) ∧
    (∀ c, mapGet contacts (jsToLower name) = some c → findContactByName contacts name = some c) := by
  cases hm : mapGet contacts (jsToLower name) with
  | some c0 =>
    have hfind : findContactByName contacts name = some c0 := by
      unfold findContactByName
      simp only [hm]
    refine ⟨?_, ?_, ?_⟩
    · intro c hc
      rw [hfind] at hc
      injection hc with hc
      subst hc
      refine ⟨(jsToLower name), mapGet_mem hm, ?_, ?_⟩
      · rw [calcScore_self]; omega
      · intro kv _
        rw [calcScore_self]
        exact calcScore_le_100 _ _
    · intro hnone
      rw [hfind] at hnone
      exact absurd hnone (by simp)
    · intro c hc
      injection hc with hc
      rw [hfind, hc]
  | none =>
    obtain ⟨hdom, hreal⟩ := bestFold_spec (jsToLower name) contacts
    have hfind : findContactByName contacts name =
        (if 60 ≤ (bestFold (jsToLower name) contacts).1
         then (bestFold (jsToLower name) contacts).2 else none) := by
      unfold findContactByName
      simp only [hm]
    refine ⟨?_, ?_, ?_⟩
    · intro c hc
      rw [hfind] at hc
      by_cases hge : 60 ≤ (bestFold (jsToLower name) contacts).1
      · rw [if_pos hge] at hc
        rcases hreal with heq | ⟨kv, hkv, hsc, hsnd⟩
        · rw [heq] at hge
          omega
        · rw [hsnd] at hc
          injection hc with hc
          refine ⟨kv.1, ?_, ?_, ?_⟩
          · rw [← hc]
            simpa using hkv
          · rw [hsc]; exact hge
          · intro kv' hkv'
            rw [hsc]
            exact hdom kv' hkv'
      · rw [if_neg hge] at hc
        exact absurd hc (by simp)
    · intro hnone kv hkv
      rw [hfind] at hnone
      by_cases hge : 60 ≤ (bestFold (jsToLower name) contacts).1
      · exfalso
        rw [if_pos hge] at hnone
        rcases hreal with heq | ⟨kv', _, _, hsnd⟩
        · rw [heq] at hge; omega
        · rw [hsnd] at hnone; exact absurd hnone (by simp)
      · have := hdom kv hkv
        omega
    · intro c hc
      exact absurd hc (by simp)

/-- C4 witness: in a cache holding only the key `"ana samat"`, the query
`"Ana"` returns that entry, and the theorem yields a maximal scoring key at
or above the threshold. -/
theorem findContactByName_threshold_exact_witness :
    ∃ k, (k, anaContact) ∈ anaContacts ∧ 60 ≤ calcScore (jsToLower "Ana") k ∧
      ∀ kv ∈ anaContacts, calcScore (jsToLower "Ana") kv.1 ≤ calcScore (jsToLower "Ana") k :=
  (findContactByName_threshold_exact anaContacts "Ana").1 anaContact (by decide)

/-- C5: when the enumeration bridge call fails, `fullUpdate` rethrows that
error and the persisted snapshot files (contact index, capability index,
metadata) are exactly the ones it started from — partial results are never
persisted. -/
theorem fullUpdate_error_preserves_snapshot
    (e : String) (probe : String → Except String String) (p : Persisted)
    (st : CacheState) (now : Nat) :
    (fullUpdate (.error e) probe p st now).1 = Except.error e ∧
    (fullUpdate (.error e) probe p st now).2.2 = p :=
  ⟨rfl, rfl⟩

/-- C7 counterexample: the raw string `"+123456789"` keeps only 9 digits
after the strip, yet `normalizePhoneNumber` does not return null — it
returns the string unchanged, because the length guard counts the `+`.  The
claim, which demands null whenever fewer than 10 digits remain, is false
here. -/
theorem normalize_nine_digits_counterexample :
    ((cleanPhone "+123456789").data.filter Char.isDigit).length = 9 ∧
    normalizePhoneNumber "+123456789" = some "+123456789" := by
  constructor
  · decide
  · decide

/-- C7 amended: `normalizePhoneNumber` coincides everywhere with the amended
contract `specNormalizeAmended` — strip keeps every `+`, the length-10 guard
counts `+` characters, the three regional rewrites apply in priority order,
and every other stripped string of length at least 10 passes through
unchanged. -/
theorem normalizePhoneNumber_eq_specNormalizeAmended (raw : String) :
    normalizePhoneNumber raw = specNormalizeAmended raw := by
  unfold normalizePhoneNumber specNormalizeAmended cleanPhone
  by_cases hraw : raw = ""
  · subst hraw
    simp
  · have hdata : ¬ raw.data = [] := fun h => hraw (String.ext h)
    rw [if_neg hraw]
    simp only [hdata, false_or, String.length_mk]
    by_cases hlen : (raw.data.filter (fun c => c.isDigit || c = '+')).length < 10
    · simp only [if_pos hlen]
    · simp only [if_neg hlen]
      simp only [isPlus1Form_mk_iff, isOne11Form_mk_iff, isBare10Form_mk_iff,
        string_cons_plus, string_cons_plus1]

/-- C9: a daemon status query while the liveness marker names a dead process
reports `running = false`, clears the marker (the file is overwritten with
the empty string), and the cleared marker fails every subsequent liveness
check. -/
theorem daemon_status_dead_pid
    (live : Nat → Bool) (content : String) (pid : Nat)
    (hparse : jsParseIntNat content = some pid) (hdead : live pid = false) :
    (getStatus live ⟨some content⟩).1.running = false ∧
    (getStatus live ⟨some content⟩).2.pidFile = some "" ∧
    (isAlreadyRunning live (getStatus live ⟨some content⟩).2).1 = false := by
  have hrun : isAlreadyRunning live ⟨some content⟩ = (false, ⟨some ""⟩) := by
    unfold isAlreadyRunning removePidFile
    simp only [hparse, hdead]
    rfl
  have hnil : jsParseIntNat "" = none := by decide
  refine ⟨?_, ?_, ?_⟩
  · unfold getStatus
    rw [hrun]
  · unfold getStatus
    rw [hrun]
  · unfold getStatus
    rw [hrun]
    unfold isAlreadyRunning
    simp [hnil]

/-- C9 witness: marker content `"12345"` with no live process. -/
theorem daemon_status_dead_pid_witness :
    (getStatus (fun _ => false) ⟨some "12345"⟩).1.running = false ∧
    (getStatus (fun _ => false) ⟨some "12345"⟩).2.pidFile = some "" ∧
    (isAlreadyRunning (fun _ => false) (getStatus (fun _ => false) ⟨some "12345"⟩).2).1 = false :=
  daemon_status_dead_pid (fun _ => false) "12345" 12345 (by decide) rfl

/-- An absent response vacuously satisfies the affirmative-response side
condition. -/
theorem respAffOfNone : ∀ s', (none : Option String) = some s' →
    s' = "" ∨ isAffirmative s' = true :=
  fun _ hs' => nomatch hs'

/-- A present response that does not fire the decline branch is empty or
affirmative. -/
theorem respAffOfNotDecl {s : String} (h : ¬ (s ≠ "" ∧ isAffirmative s = false)) :
    ∀ s', (some s : Option String) = some s' → s' = "" ∨ isAffirmative s' = true := by
  intro s' hs'
  have hss : s = s' := by injection hs'
  subst hss
  rcases not_and_or.mp h with h1 | h2
  · exact Or.inl (not_not.mp h1)
  · right
    revert h2
    cases isAffirmative s <;> simp

/-- Valid token, affirmative/absent response, bridge succeeds: the stored
entry is sent and consumed. -/
theorem confirm_valid_ok
    {pending : List (String × PendingConfirmation)} {token : String}
    {p : PendingConfirmation} {resp : Option String} {now : Nat}
    (hget : mapGet pending token = some p)
    (hvalid : ¬ p.timestamp < now - 5 * 60 * 1000)
    (hresp : ∀ s, resp = some s → s = "" ∨ isAffirmative s = true) (u : Unit) :
    sendMessageConfirmed pending token resp now (Except.ok u) =
      (⟨true, "✅ Message sent to " ++ p.validatedRecipient ++ " (" ++
          p.validatedPhoneNumber ++ ") via " ++ jsToUpper p.validatedMessageType,
        some p.validatedRecipient, some p.validatedMessageType, some p.validatedPhoneNumber⟩,
       mapDelete (cleanupOldConfirmations now pending) token, some (mkSendScript p)) := by
  rw [confirm_of_valid_affirmative hget hvalid hresp (Except.ok u)]

/-- Valid token, affirmative/absent response, bridge throws: a send-level
failure is reported, the swept ledger is kept, the token is not consumed. -/
theorem confirm_valid_error
    {pending : List (String × PendingConfirmation)} {token : String}
    {p : PendingConfirmation} {resp : Option String} {now : Nat}
    (hget : mapGet pending token = some p)
    (hvalid : ¬ p.timestamp < now - 5 * 60 * 1000)
    (hresp : ∀ s, resp = some s → s = "" ∨ isAffirmative s = true) (e : String) :
    sendMessageConfirmed pending token resp now (Except.error e) =
      (⟨false, "Failed to send confirmed message: " ++ e, none, none, none⟩,
       cleanupOldConfirmations now pending, some (mkSendScript p)) := by
  rw [confirm_of_valid_affirmative hget hvalid hresp (Except.error e)]

/-- C1: whenever `sendMessageConfirmed` hands a script to the automation
bridge, that script — recipient phone number, escaped message body, message
type — is `mkSendScript` of the entry stored in the pending-confirmation
ledger under the token, and nothing else; the reported recipient display
name, phone number and message type of a successful send are likewise the
stored values.  Since `mkSendScript` depends only on the stored entry, no
argument of the call other than the token (which selects the entry) can
influence what is sent. -/
theorem confirm_sends_only_stored_values
    (pending : List (String × PendingConfirmation)) (token : String)
    (resp : Option String) (now : Nat) (bridge : Except String Unit) (script : SendScript)
    (h : (sendMessageConfirmed pending token resp now bridge).2.2 = some script) :
    ∃ p, mapGet pending token = some p ∧ script = mkSendScript p ∧
      ((sendMessageConfirmed pending token resp now bridge).1.success = true →
        (sendMessageConfirmed pending token resp now bridge).1.recipientName =
          some p.validatedRecipient ∧
        (sendMessageConfirmed pending token resp now bridge).1.phoneNumber =
          some p.validatedPhoneNumber ∧
        (sendMessageConfirmed pending token resp now bridge).1.messageType =
          some p.validatedMessageType) := by
  cases hget : mapGet pending token with
  | none =>
    rw [confirm_of_absent bridge hget] at h
    exact absurd h (by simp)
  | some p =>
    have hbody : ∀ hresp : (∀ s, resp = some s → s = "" ∨ isAffirmative s = true),
        script = mkSendScript p ∧
          ((sendMessageConfirmed pending token resp now bridge).1.success = true →
            (sendMessageConfirmed pending token resp now bridge).1.recipientName =
              some p.validatedRecipient ∧
            (sendMessageConfirmed pending token resp now bridge).1.phoneNumber =
              some p.validatedPhoneNumber ∧
            (sendMessageConfirmed pending token resp now bridge).1.messageType =
              some p.validatedMessageType) := by
      intro hresp
      by_cases hexp : p.timestamp < now - 5 * 60 * 1000
      · rw [confirm_of_expired bridge hget hexp hresp] at h
        exact absurd h (by simp)
      · cases bridge with
        | ok u =>
          rw [confirm_valid_ok hget hexp hresp u] at h ⊢
          refine ⟨?_, fun _ => ⟨rfl, rfl, rfl⟩⟩
          have := h
          simp only at this
          injection this with this
          exact this.symm
        | error e =>
          rw [confirm_valid_error hget hexp hresp e] at h ⊢
          refine ⟨?_, fun hfalse => absurd hfalse (by simp)⟩
          have := h
          simp only at this
          injection this with this
          exact this.symm
    cases resp with
    | none => exact ⟨p, rfl, hbody respAffOfNone⟩
    | some s =>
      by_cases hdecl : s ≠ "" ∧ isAffirmative s = false
      · rw [confirm_of_declined bridge hget hdecl.1 hdecl.2] at h
        exact absurd h (by simp)
      · exact ⟨p, rfl, hbody (respAffOfNotDecl hdecl)⟩

/-- C1 witness: a fresh token confirmed with no response and a working
bridge sends exactly the stored values. -/
theorem confirm_sends_only_stored_values_witness :
    ∃ p, mapGet [("t", pendingFresh)] "t" = some p ∧
      mkSendScript pendingFresh = mkSendScript p ∧
      ((sendMessageConfirmed [("t", pendingFresh)] "t" none 0 (Except.ok ())).1.success = true →
        (sendMessageConfirmed [("t", pendingFresh)] "t" none 0 (Except.ok ())).1.recipientName =
          some p.validatedRecipient ∧
        (sendMessageConfirmed [("t", pendingFresh)] "t" none 0 (Except.ok ())).1.phoneNumber =
          some p.validatedPhoneNumber ∧
        (sendMessageConfirmed [("t", pendingFresh)] "t" none 0 (Except.ok ())).1.messageType =
          some p.validatedMessageType) :=
  confirm_sends_only_stored_values [("t", pendingFresh)] "t" none 0 (Except.ok ())
    (mkSendScript pendingFresh) (by decide)

/-- C2: a pending confirmation whose timestamp is more than five minutes in
the past is never honored — `sendMessageConfirmed` reports failure, never
invokes the bridge, and the entry is gone from the ledger afterwards, for
every response value (affirmative ones included) and every bridge. -/
theorem confirm_rejects_expired_token
    (pending : List (String × PendingConfirmation)) (token : String)
    (p : PendingConfirmation) (resp : Option String) (now : Nat)
    (bridge : Except String Unit)
    (hget : mapGet pending token = some p)
    (hexp : p.timestamp + 5 * 60 * 1000 < now) :
    (sendMessageConfirmed pending token resp now bridge).1.success = false ∧
    (sendMessageConfirmed pending token resp now bridge).2.2 = none ∧
    mapGet (sendMessageConfirmed pending token resp now bridge).2.1 token = none := by
  have hexp' : p.timestamp < now - 5 * 60 * 1000 := by omega
  cases resp with
  | none =>
    rw [confirm_of_expired bridge hget hexp' respAffOfNone]
    exact ⟨rfl, rfl, mapGet_mapDelete_self _ _⟩
  | some s =>
    by_cases hdecl : s ≠ "" ∧ isAffirmative s = false
    · rw [confirm_of_declined bridge hget hdecl.1 hdecl.2]
      exact ⟨rfl, rfl, mapGet_mapDelete_self _ _⟩
    · rw [confirm_of_expired bridge hget hexp' (respAffOfNotDecl hdecl)]
      exact ⟨rfl, rfl, mapGet_mapDelete_self _ _⟩

/-- C2 witness: a token issued at t = 0, confirmed affirmatively at
t = 300001 ms (one millisecond past the window), fails and is deleted. -/
theorem confirm_rejects_expired_token_witness :
    (sendMessageConfirmed [("t", pendingFresh)] "t" (some "yes") 300001 (Except.ok ())).1.success
        = false ∧
    (sendMessageConfirmed [("t", pendingFresh)] "t" (some "yes") 300001 (Except.ok ())).2.2
        = none ∧
    mapGet (sendMessageConfirmed [("t", pendingFresh)] "t" (some "yes") 300001
        (Except.ok ())).2.1 "t" = none :=
  confirm_rejects_expired_token [("t", pendingFresh)] "t" pendingFresh (some "yes") 300001
    (Except.ok ()) (by decide) (by decide)

/-- C3 counterexample: the empty string is a present response outside the
affirmative vocabulary, yet — because `userConfirmation && ...` treats `""`
as falsy — `sendMessageConfirmed` neither declines nor deletes: it performs
the send and reports success.  The claim as stated (every present
non-affirmative response is declined with no send) is therefore false. -/
theorem confirm_empty_response_counterexample :
    isAffirmative "" = false ∧
    (sendMessageConfirmed [("t", pendingFresh)] "t" (some "") 0 (Except.ok ())).1.success
        = true ∧
    (sendMessageConfirmed [("t", pendingFresh)] "t" (some "") 0 (Except.ok ())).2.2
        = some (mkSendScript pendingFresh) ∧
    (sendMessageConfirmed [("t", pendingFresh)] "t" (some "") 0 (Except.ok ())).1.message
        ≠ "❌ Message sending cancelled by user." := by
  refine ⟨by decide, by decide, by decide, by decide⟩

/-- C3 amended: on a valid token, a present, **non-empty** response whose
lowercased trimmed form is outside the affirmative vocabulary deletes the
pending confirmation, reports the decline, and never touches the bridge;
a confirm with no response proceeds as affirmative — it hands the stored
script to the bridge, and succeeds when the bridge does. -/
theorem confirm_decline_vocabulary_amended
    (pending : List (String × PendingConfirmation)) (token : String)
    (p : PendingConfirmation) (s : String) (now : Nat) (bridge : Except String Unit)
    (hget : mapGet pending token = some p)
    (hvalid : ¬ p.timestamp < now - 5 * 60 * 1000)
    (hs : s ≠ "") (hna : isAffirmative s = false) :
    ((sendMessageConfirmed pending token (some s) now bridge).1.success = false ∧
     (sendMessageConfirmed pending token (some s) now bridge).2.2 = none ∧
     mapGet (sendMessageConfirmed pending token (some s) now bridge).2.1 token = none ∧
     (sendMessageConfirmed pending token (some s) now bridge).1.message =
       "❌ Message sending cancelled by user.") ∧
    ((sendMessageConfirmed pending token none now bridge).2.2 = some (mkSendScript p) ∧
     (sendMessageConfirmed pending token none now (Except.ok ())).1.success = true) := by
  refine ⟨?_, ?_, ?_⟩
  · rw [confirm_of_declined bridge hget hs hna]
    exact ⟨rfl, rfl, mapGet_mapDelete_self _ _, rfl⟩
  · cases bridge with
    | ok u => rw [confirm_valid_ok hget hvalid respAffOfNone u]
    | error e => rw [confirm_valid_error hget hvalid respAffOfNone e]
  · rw [confirm_valid_ok hget hvalid respAffOfNone ()]

/-- C3 amended witness: response `"no"` declines and deletes; no response
sends and succeeds. -/
theorem confirm_decline_vocabulary_amended_witness :
    ((sendMessageConfirmed [("t", pendingFresh)] "t" (some "no") 0 (Except.ok ())).1.success
        = false ∧
     (sendMessageConfirmed [("t", pendingFresh)] "t" (some "no") 0 (Except.ok ())).2.2
        = none ∧
     mapGet (sendMessageConfirmed [("t", pendingFresh)] "t" (some "no") 0
        (Except.ok ())).2.1 "t" = none ∧
     (sendMessageConfirmed [("t", pendingFresh)] "t" (some "no") 0 (Except.ok ())).1.message =
       "❌ Message sending cancelled by user.") ∧
    ((sendMessageConfirmed [("t", pendingFresh)] "t" none 0 (Except.ok ())).2.2
        = some (mkSendScript pendingFresh) ∧
     (sendMessageConfirmed [("t", pendingFresh)] "t" none 0 (Except.ok ())).1.success = true) :=
  confirm_decline_vocabulary_amended [("t", pendingFresh)] "t" pendingFresh "no" 0
    (Except.ok ()) (by decide) (by decide) (by decide) (by decide)

/-- C6 counterexample: a probe whose bridge call errors is caught *inside*
`testSingleMessageCapability`, which returns `'unknown'`; the record is then
stored through the ordinary `calculateConfidence` path with confidence 0.3,
not 0.1 as the claim states.  (The `catch` branch in the batch loop that
would store 0.1 is unreachable.) -/
theorem probe_error_confidence_counterexample :
    mapGet (testMessageCapabilities (fun _ => Except.error "boom") stateBob 5).capabilities
        "+14155550100" = some ⟨"+14155550100", "unknown", 5, 0.3⟩ ∧
    (0.3 : ℚ) ≠ 0.1 := by
  refine ⟨rfl, by norm_num⟩

/-- C6 amended: every canonical number collected for the pass gets a fresh
record whose confidence is exactly `calculateConfidence` of its
classification (0.9 / 0.8 / 0.3, and 0.1 only for a classification string
outside the three expected values); an erroring probe classifies as
`'unknown'`, which carries confidence 0.3; each number's record is stored
independently, so the rest of the batch continues regardless of other
probes' outcomes. -/
theorem capability_confidence_amended
    (probe : String → Except String String) (st : CacheState) (now : Nat) (n : String)
    (e : String) (hn : n ∈ collectNumbers st.contacts) :
    mapGet (testMessageCapabilities probe st now).capabilities n =
      some (capabilityRecordFor probe now n) ∧
    (capabilityRecordFor probe now n).confidence =
      calculateConfidence (capabilityRecordFor probe now n).type ∧
    (capabilityRecordFor probe now n).lastTested = now ∧
    testSingleMessageCapability (Except.error e) = "unknown" ∧
    calculateConfidence "unknown" = 0.3 := by
  refine ⟨?_, rfl, rfl, rfl, rfl⟩
  show mapGet ((collectNumbers st.contacts).foldl
      (fun caps x => mapSet caps x (capabilityRecordFor probe now x)) st.capabilities) n =
    some (capabilityRecordFor probe now n)
  rw [mapGet_foldl_set, if_pos hn]

/-- C6 amended witness: the single collected number of a one-contact cache,
probed through an erroring bridge, is stored as `'unknown'` at 0.3. -/
theorem capability_confidence_amended_witness :
    mapGet (testMessageCapabilities (fun _ => Except.error "boom") stateBob 5).capabilities
        "+14155550100" =
      some (capabilityRecordFor (fun _ => Except.error "boom") 5 "+14155550100") ∧
    (capabilityRecordFor (fun _ => Except.error "boom") 5 "+14155550100").confidence =
      calculateConfidence (capabilityRecordFor (fun _ => Except.error "boom") 5
        "+14155550100").type ∧
    (capabilityRecordFor (fun _ => Except.error "boom") 5 "+14155550100").lastTested = 5 ∧
    testSingleMessageCapability (Except.error "boom") = "unknown" ∧
    calculateConfidence "unknown" = 0.3 :=
  capability_confidence_amended (fun _ => Except.error "boom") stateBob 5 "+14155550100"
    "boom" (by decide)

/-- C8 counterexample: a successful full pass over a directory that contains
only Bob (canonical number `+14155550100`) retains the persisted capability
record for `+19999999999`, a number appearing in no current contact — both
in the in-memory index and in the freshly persisted capability file.  The
claim that stale records are dropped is therefore false: `fullUpdate` never
clears the capability map. -/
theorem stale_capability_retained_counterexample :
    ("+19999999999" ∉ collectNumbers
      (fullUpdate (Except.ok "Bob:415-555-0100:") (fun _ => Except.ok "imessage")
        persistedStale stateEmpty 1000).2.1.contacts) ∧
    mapGet (fullUpdate (Except.ok "Bob:415-555-0100:") (fun _ => Except.ok "imessage")
        persistedStale stateEmpty 1000).2.1.capabilities "+19999999999" = some staleCap ∧
    (((fullUpdate (Except.ok "Bob:415-555-0100:") (fun _ => Except.ok "imessage")
        persistedStale stateEmpty 1000).2.2.capsFile.getD []).map (·.phoneNumber)) =
      ["+19999999999", "+14155550100"] := by
  refine ⟨by decide, rfl, rfl⟩

/-- C8 amended: after a successful full extraction pass, every canonical
number of the currently extracted contacts has a freshly probed capability
record in the index, but records for numbers no longer present are retained
unchanged from the loaded snapshot — they are not dropped. -/
theorem fullUpdate_capability_index_amended
    (result : String) (probe : String → Except String String) (p : Persisted)
    (st : CacheState) (now : Nat) (n k : String)
    (hn : n ∈ collectNumbers (fullUpdate (Except.ok result) probe p st now).2.1.contacts)
    (hk : k ∉ collectNumbers (fullUpdate (Except.ok result) probe p st now).2.1.contacts) :
    (fullUpdate (Except.ok result) probe p st now).1 = Except.ok () ∧
    mapGet (fullUpdate (Except.ok result) probe p st now).2.1.capabilities n =
      some (capabilityRecordFor probe now n) ∧
    mapGet (fullUpdate (Except.ok result) probe p st now).2.1.capabilities k =
      mapGet (loadExistingCache p st).capabilities k := by
  have hn' : n ∈ collectNumbers (parseContacts result now) := hn
  have hk' : k ∉ collectNumbers (parseContacts result now) := hk
  refine ⟨rfl, ?_, ?_⟩
  · show mapGet ((collectNumbers (parseContacts result now)).foldl
        (fun caps x => mapSet caps x (capabilityRecordFor probe now x))
        (loadExistingCache p st).capabilities) n = some (capabilityRecordFor probe now n)
    rw [mapGet_foldl_set, if_pos hn']
  · show mapGet ((collectNumbers (parseContacts result now)).foldl
        (fun caps x => mapSet caps x (capabilityRecordFor probe now x))
        (loadExistingCache p st).capabilities) k = mapGet (loadExistingCache p st).capabilities k
    rw [mapGet_foldl_set, if_neg hk']

/-- C8 amended witness: the current number gets a fresh record, the stale
number keeps its loaded record. -/
theorem fullUpdate_capability_index_amended_witness :
    (fullUpdate (Except.ok "Bob:415-555-0100:") (fun _ => Except.ok "imessage")
        persistedStale stateEmpty 1000).1 = Except.ok () ∧
    mapGet (fullUpdate (Except.ok "Bob:415-555-0100:") (fun _ => Except.ok "imessage")
        persistedStale stateEmpty 1000).2.1.capabilities "+14155550100" =
      some (capabilityRecordFor (fun _ => Except.ok "imessage") 1000 "+14155550100") ∧
    mapGet (fullUpdate (Except.ok "Bob:415-555-0100:") (fun _ => Except.ok "imessage")
        persistedStale stateEmpty 1000).2.1.capabilities "+19999999999" =
      mapGet (loadExistingCache persistedStale stateEmpty).capabilities "+19999999999" :=
  fullUpdate_capability_index_amended "Bob:415-555-0100:" (fun _ => Except.ok "imessage")
    persistedStale stateEmpty 1000 "+14155550100" "+19999999999" (by decide) (by decide)

/-- C10 counterexample: a ledger holding a valid token `a` and an expired
token `b`; confirming `a` with a throwing bridge reports failure and keeps
`a`, but the sweep at step 3 has already deleted `b` — the ledger is *not*
unchanged, contradicting the claim as stated. -/
theorem send_throw_sweeps_counterexample :
    (sendMessageConfirmed [("a", pendingValidA), ("b", pendingExpiredB)] "a" none 400000
        (Except.error "boom")).1.success = false ∧
    (sendMessageConfirmed [("a", pendingValidA), ("b", pendingExpiredB)] "a" none 400000
        (Except.error "boom")).2.1 ≠ [("a", pendingValidA), ("b", pendingExpiredB)] ∧
    mapGet (sendMessageConfirmed [("a", pendingValidA), ("b", pendingExpiredB)] "a" none 400000
        (Except.error "boom")).2.1 "a" = some pendingValidA := by
  refine ⟨by decide, by decide, by decide⟩

/-- C10 amended: on a valid unexpired token with an absent / empty /
affirmative response, a bridge throw during the send reports a send-level
failure, the script handed to the bridge was the stored one, and the entry
for the token survives (only expired entries elsewhere are swept), so a
later confirm of the same token within its window sends the stored script
and succeeds. -/
theorem send_failure_token_preserved_amended
    (pending : List (String × PendingConfirmation)) (token : String)
    (p : PendingConfirmation) (resp : Option String) (now now2 : Nat) (e : String)
    (hget : mapGet pending token = some p)
    (hvalid : ¬ p.timestamp < now - 5 * 60 * 1000)
    (hresp : ∀ s, resp = some s → s = "" ∨ isAffirmative s = true)
    (hvalid2 : ¬ p.timestamp < now2 - 5 * 60 * 1000) :
    (sendMessageConfirmed pending token resp now (Except.error e)).1.success = false ∧
    (sendMessageConfirmed pending token resp now (Except.error e)).2.2 =
      some (mkSendScript p) ∧
    mapGet (sendMessageConfirmed pending token resp now (Except.error e)).2.1 token = some p ∧
    (sendMessageConfirmed (sendMessageConfirmed pending token resp now (Except.error e)).2.1
        token none now2 (Except.ok ())).1.success = true ∧
    (sendMessageConfirmed (sendMessageConfirmed pending token resp now (Except.error e)).2.1
        token none now2 (Except.ok ())).2.2 = some (mkSendScript p) := by
  have hget2 : mapGet (cleanupOldConfirmations now pending) token = some p :=
    mapGet_cleanup_of_valid hget hvalid
  rw [confirm_valid_error hget hvalid hresp e]
  have heq2 := confirm_valid_ok hget2 hvalid2 respAffOfNone ()
  refine ⟨rfl, rfl, hget2, ?_, ?_⟩
  · show (sendMessageConfirmed (cleanupOldConfirmations now pending) token none now2
        (Except.ok ())).1.success = true
    rw [heq2]
  · show (sendMessageConfirmed (cleanupOldConfirmations now pending) token none now2
        (Except.ok ())).2.2 = some (mkSendScript p)
    rw [heq2]

/-- C10 amended witness: valid token `a`, throwing bridge at t = 400000,
retry at t = 400001 succeeds. -/
theorem send_failure_token_preserved_amended_witness :
    (sendMessageConfirmed [("a", pendingValidA), ("b", pendingExpiredB)] "a" none 400000
        (Except.error "boom")).1.success = false ∧
    (sendMessageConfirmed [("a", pendingValidA), ("b", pendingExpiredB)] "a" none 400000
        (Except.error "boom")).2.2 = some (mkSendScript pendingValidA) ∧
    mapGet (sendMessageConfirmed [("a", pendingValidA), ("b", pendingExpiredB)] "a" none 400000
        (Except.error "boom")).2.1 "a" = some pendingValidA ∧
    (sendMessageConfirmed (sendMessageConfirmed [("a", pendingValidA), ("b", pendingExpiredB)]
        "a" none 400000 (Except.error "boom")).2.1 "a" none 400001
        (Except.ok ())).1.success = true ∧
    (sendMessageConfirmed (sendMessageConfirmed [("a", pendingValidA), ("b", pendingExpiredB)]
        "a" none 400000 (Except.error "boom")).2.1 "a" none 400001
        (Except.ok ())).2.2 = some (mkSendScript pendingValidA) :=
  send_failure_token_preserved_amended [("a", pendingValidA), ("b", pendingExpiredB)] "a"
    pendingValidA none 400000 400001 "boom" (by decide) (by decide) respAffOfNone (by decide)
